import Mathlib

/-!
Shallow embedding of the statistics and pacing core of the Android game SDK
repository (frame-pacing library and Tuning Fork telemetry), together with
theorems checking the specification's claims about it.

Histogram definitions follow src/src/tuningfork/histogram.cpp.  Samples are
C++ doubles; they are embedded as exact rationals (ℚ), and the one genuinely
floating-point-only operation, sqrt in the auto-range statistics, is supplied
as an abstract function parameter so theorems hold for any approximation the
platform math library returns.  Machine bucket counters are embedded as ℕ
(the counts class-invariantly stay far below 2^32 and no claim concerns
wraparound).
-/

namespace Gamesdk

attribute [local semireducible] Rat.mul Rat.add Rat.sub Rat.inv Rat.ofScientific

/-- Bucketing mode of a histogram, from the Mode enum used in histogram.cpp
(HISTOGRAM is the spec's FIXED_RANGE). -/
inductive Mode where
  | HISTOGRAM
  | AUTO_RANGE
  | EVENTS_ONLY
deriving DecidableEq, Repr

/-- Error codes of the Tuning Fork API that histogram.cpp returns. -/
inductive TFErrorCode where
  | TFERROR_OK
  | TFERROR_BAD_PARAMETER
deriving DecidableEq, Repr

/-- Constants and the sqrt routine that histogram.cpp takes from its header
(kAutoSizeNumStdDev, kAutoSizeMinBucketSizeMs) and from cmath (sqrt).  The
header is not part of the sources at hand, so they are kept abstract; every
theorem below is proved for all values of these parameters. -/
structure AutoParams where
  sqrtApprox : ℚ → ℚ
  kAutoSizeNumStdDev : ℚ
  kAutoSizeMinBucketSizeMs : ℚ

/-- State of a tuningfork::Histogram: the fields of the C++ class, with the
vector capacity reserved for the auto-range sample batch made explicit
(samples_cap; the constructor reserves num_buckets_ slots). -/
structure Histogram where
  mode : Mode
  start_ms : ℚ
  end_ms : ℚ
  bucket_dt_ms : ℚ
  num_buckets : ℕ
  buckets : List ℕ
  samples : List ℚ
  samples_cap : ℕ
  count : ℕ
  next_event_index : ℕ
deriving DecidableEq, Repr

/-- Conversion of a rational to int as C++ does when assigning a double to an
int variable: truncation toward zero. -/
def ratTrunc (q : ℚ) : ℤ :=
  q.num.tdiv q.den

/-- Bucket selection of Histogram::Add in HISTOGRAM mode:
int i = (dt_ms - start_ms_) / bucket_dt_ms_ (double division, truncated on
assignment to int), then clamped to bucket 0 below and bucket
num_buckets - 1 above, otherwise bucket i + 1. -/
def bucketIndexOf (start_ms bucket_dt_ms : ℚ) (num_buckets : ℕ) (dt_ms : ℚ) : ℕ :=
  let i : ℤ := ratTrunc ((dt_ms - start_ms) / bucket_dt_ms)
  if i < 0 then 0
  else if (num_buckets : ℤ) ≤ i + 1 then num_buckets - 1
  else (i + 1).toNat

/-- Increment of one cell of the bucket vector (buckets_[i]++). -/
def bump (l : List ℕ) (i : ℕ) : List ℕ :=
  l.set i (l.getD i 0 + 1)

/-- Histogram::Histogram(float start_ms, float end_ms, int num_buckets_between,
bool never_bucket).  kDefaultNumBuckets comes from the header that is not in
the sources at hand, so it is passed as a parameter. -/
def Histogram.construct (kDefaultNumBuckets : ℕ) (start_ms end_ms : ℚ)
    (num_buckets_between : ℤ) (never_bucket : Bool) : Histogram :=
  let mode :=
    if never_bucket then Mode.EVENTS_ONLY
    else if start_ms = 0 ∧ end_ms = 0 then Mode.AUTO_RANGE
    else Mode.HISTOGRAM
  let n : ℕ :=
    if num_buckets_between ≤ 0 then kDefaultNumBuckets
    else num_buckets_between.toNat + 2
  { mode := mode
    start_ms := start_ms
    end_ms := end_ms
    bucket_dt_ms :=
      (end_ms - start_ms) / (if num_buckets_between ≤ 0 then 1 else (num_buckets_between : ℚ))
    num_buckets := n
    buckets := List.replicate n 0
    samples :=
      match mode with
      | Mode.EVENTS_ONLY => List.replicate n 0
      | _ => []
    samples_cap := n
    count := 0
    next_event_index := 0 }

/-- Body of the HISTOGRAM case of Histogram::Add (bucket update only; the
shared ++count_ is applied by Histogram.Add). -/
def Histogram.addHistogramMode (h : Histogram) (dt_ms : ℚ) : Histogram :=
  { h with buckets := bump h.buckets (bucketIndexOf h.start_ms h.bucket_dt_ms h.num_buckets dt_ms) }

/-- One Add(d) call as executed by the replay loop of CalcBucketsFromSamples:
mode_ is HISTOGRAM at that point, so Add takes the HISTOGRAM branch and then
increments count_. -/
def Histogram.replayAdd (h : Histogram) (dt_ms : ℚ) : Histogram :=
  let h1 := h.addHistogramMode dt_ms
  { h1 with count := h1.count + 1 }

/-- Histogram::CalcBucketsFromSamples.  The C++ also computes min_dt and
max_dt over the batch but never uses them; they are omitted as dead code.
The replay loop calls Add(d) with mode_ already switched to HISTOGRAM, so
each replayed sample takes the HISTOGRAM branch and then ++count_. -/
def Histogram.CalcBucketsFromSamples (p : AutoParams) (h : Histogram) : Histogram :=
  if h.mode ≠ Mode.AUTO_RANGE then h
  else
    let n : ℚ := (h.samples.length : ℚ)
    let sum := h.samples.sum
    let sum2 := (h.samples.map (fun d => d * d)).sum
    let mean := sum / n
    let var0 := sum2 / n - mean * mean
    let var1 := if var0 < 0 then 0 else var0
    let stddev := p.sqrtApprox var1
    let start0 := max (mean - p.kAutoSizeNumStdDev * stddev) 0
    let end0 := mean + p.kAutoSizeNumStdDev * stddev
    let bdt0 := (end0 - start0) / ((h.num_buckets : ℚ) - 2)
    let h1 :=
      if bdt0 < p.kAutoSizeMinBucketSizeMs then
        let w := p.kAutoSizeMinBucketSizeMs * ((h.num_buckets : ℚ) - 2)
        { h with start_ms := mean - w / 2, end_ms := mean + w / 2,
                 bucket_dt_ms := p.kAutoSizeMinBucketSizeMs,
                 mode := Mode.HISTOGRAM, count := 0 }
      else
        { h with start_ms := start0, end_ms := end0, bucket_dt_ms := bdt0,
                 mode := Mode.HISTOGRAM, count := 0 }
    h.samples.foldl Histogram.replayAdd h1

/-- Histogram::Add(Sample dt_ms): dispatch on mode_, then ++count_. -/
def Histogram.Add (p : AutoParams) (h : Histogram) (dt_ms : ℚ) : Histogram :=
  let h1 :=
    match h.mode with
    | Mode.HISTOGRAM => h.addHistogramMode dt_ms
    | Mode.AUTO_RANGE =>
      let h2 := { h with samples := h.samples ++ [dt_ms] }
      if h2.samples.length = h2.samples_cap then Histogram.CalcBucketsFromSamples p h2 else h2
    | Mode.EVENTS_ONLY =>
      let h2 := { h with samples := h.samples.set h.next_event_index dt_ms }
      let idx := h.next_event_index + 1
      { h2 with next_event_index := if h2.samples.length ≤ idx then 0 else idx }
  { h1 with count := h1.count + 1 }

/-- Sequence of Histogram::Add calls. -/
def Histogram.AddList (p : AutoParams) (h : Histogram) (l : List ℚ) : Histogram :=
  l.foldl (Histogram.Add p) h

/-- Histogram::Clear. -/
def Histogram.Clear (h : Histogram) : Histogram :=
  let h1 := { h with buckets := List.replicate h.buckets.length 0 }
  let h2 :=
    if h.mode = Mode.EVENTS_ONLY then
      { h1 with samples := List.replicate h.samples.length 0, next_event_index := 0 }
    else
      { h1 with samples := [] }
  { h2 with count := 0 }

/-- Histogram::AddCounts(const std::vector of uint32_t counts). -/
def Histogram.AddCounts (h : Histogram) (counts : List ℕ) : TFErrorCode × Histogram :=
  if counts.length ≠ h.buckets.length then (TFErrorCode.TFERROR_BAD_PARAMETER, h)
  else (TFErrorCode.TFERROR_OK,
        { h with buckets := List.zipWith (fun c_orig c => c_orig + c) h.buckets counts })

/-- Values emitted by the pmax loop of Histogram::ToDebugJSON: it prints the
running value x, then does x += bucket_dt_ms_, num_buckets_ - 1 times. -/
def pmaxList : ℕ → ℚ → ℚ → List ℚ
  | 0, _, _ => []
  | k + 1, x, w => x :: pmaxList k (x + w) w

/-- Histogram::ToDebugJSON.  The stream uses fixed two-decimal formatting of
doubles; that textual rendering of a sample value is abstracted as the fmt
parameter (integer bucket counts print with ordinary decimal formatting,
unaffected by the stream precision). -/
def Histogram.ToDebugJSON (fmt : ℚ → String) (h : Histogram) : String :=
  if h.mode ≠ Mode.HISTOGRAM then
    "\x7b\"events\":[" ++ String.intercalate "," (h.samples.map fmt) ++ "]\x7d"
  else
    "\x7b\"pmax\":[" ++
    String.join ((pmaxList (h.num_buckets - 1) h.start_ms h.bucket_dt_ms).map
      (fun x => fmt x ++ ",")) ++
    "99999],\"cnts\":[" ++
    String.join ((List.range (h.num_buckets - 1)).map
      (fun i => toString (h.buckets.getD i 0) ++ ",")) ++
    (if 0 < h.num_buckets then toString (h.buckets.getLastD 0) else "") ++
    "]\x7d"

/-- Spec-side description of the pmax entries before the final 99999: the
num_buckets - 1 bucket upper bounds starting at start and stepping by
bucket_width.  Written from the spec's words, to be compared with the
source-side loop. -/
def specPmax (h : Histogram) : List ℚ :=
  (List.range (h.num_buckets - 1)).map (fun (i : ℕ) => h.start_ms + (i : ℚ) * h.bucket_dt_ms)

/-- Spec-side description of the events JSON wire format, written from the
spec's words. -/
def specEventsJSON (fmt : ℚ → String) (h : Histogram) : String :=
  "\x7b\"events\":[" ++ String.intercalate "," (h.samples.map fmt) ++ "]\x7d"

/-- Spec-side description of the bucketed JSON wire format, written from the
spec's words: pmax upper bounds followed by the literal 99999, then all
bucket counts in order. -/
def specHistogramJSON (fmt : ℚ → String) (h : Histogram) : String :=
  "\x7b\"pmax\":[" ++
  String.join ((specPmax h).map (fun x => fmt x ++ ",")) ++
  "99999],\"cnts\":[" ++
  String.join ((List.range (h.num_buckets - 1)).map
    (fun i => toString (h.buckets.getD i 0) ++ ",")) ++
  (if 0 < h.num_buckets then toString (h.buckets.getLastD 0) else "") ++
  "]\x7d"

/-- Concrete parameter set used to evaluate the model on the spec's concrete
scenarios: sqrt approximated by the zero function (exact on the variance-zero
batches used), k = 3 standard deviations, minimum bucket width 1 ms. -/
def testAutoParams : AutoParams :=
  { sqrtApprox := fun _ => 0
    kAutoSizeNumStdDev := 3
    kAutoSizeMinBucketSizeMs := 1 }

/-- VkResult values that appear in SwappyVk.cpp. -/
inductive VkResult where
  | VK_SUCCESS
  | VK_SUBOPTIMAL_KHR
  | VK_INCOMPLETE
  | VK_ERROR_DEVICE_LOST
deriving DecidableEq, Repr

/-- Entry of SwappyVk::perQueueFamilyIndex (a QueueFamilyIndex struct). -/
structure QueueFamilyEntry where
  device : ℕ
  queueFamilyIndex : ℕ
deriving DecidableEq, Repr

/-- The per-handle maps of the SwappyVk singleton that QueuePresent consults.
Native handles are embedded as naturals; a per-swapchain implementation
shared_ptr is embedded as the Bool of its non-nullness (true when a pacing
implementation object is registered for the swapchain). -/
structure SwappyVkState where
  perQueueFamilyIndex : List (ℕ × QueueFamilyEntry)
  perSwapchainImplementation : List (ℕ × Bool)
deriving DecidableEq, Repr

/-- std::map operator[]: returns the mapped value, default-constructing (a
null shared_ptr, embedded as false) and inserting it first when the key is
absent.  Yields the value read and the possibly-extended map. -/
def mapIndex (m : List (ℕ × Bool)) (k : ℕ) : Bool × List (ℕ × Bool) :=
  match m.lookup k with
  | some v => (v, m)
  | none => (false, m ++ [(k, false)])

/-- Overwriting insert, the semantics of map[k] = v. -/
def assocPut (m : List (ℕ × QueueFamilyEntry)) (k : ℕ) (v : QueueFamilyEntry) :
    List (ℕ × QueueFamilyEntry) :=
  match m with
  | [] => [(k, v)]
  | (k0, v0) :: rest => if k0 = k then (k, v) :: rest else (k0, v0) :: assocPut rest k v

/-- The fields of VkPresentInfoKHR that SwappyVk::QueuePresent reads: the
swapchain count and the (possibly null) swapchain array. -/
structure VkPresentInfo where
  swapchainCount : ℕ
  pSwapchains : Option (List ℕ)
deriving DecidableEq, Repr

/-- SwappyVk::SetQueueFamilyIndex: perQueueFamilyIndex[queue] =
(device, queueFamilyIndex). -/
def SwappyVk.SetQueueFamilyIndex (st : SwappyVkState) (device queue queueFamilyIndex : ℕ) :
    SwappyVkState :=
  { st with perQueueFamilyIndex :=
      assocPut st.perQueueFamilyIndex queue ⟨device, queueFamilyIndex⟩ }

/-- SwappyVk::QueuePresent.  doQueuePresentResult stands for whatever the
registered per-swapchain implementation's doQueuePresent would return; the
Bool of the result records whether that delegated pacing/present call was
performed at all. -/
def SwappyVk.QueuePresent (doQueuePresentResult : VkResult) (st : SwappyVkState)
    (queue : ℕ) (pinfo : VkPresentInfo) : VkResult × SwappyVkState × Bool :=
  if (st.perQueueFamilyIndex.lookup queue).isNone then
    (VkResult.VK_INCOMPLETE, st, false)
  else if pinfo.swapchainCount = 0 ∨ pinfo.pSwapchains.isNone then
    (VkResult.VK_ERROR_DEVICE_LOST, st, false)
  else
    let firstSwapchain := (pinfo.pSwapchains.getD []).headD 0
    let looked := mapIndex st.perSwapchainImplementation firstSwapchain
    let st1 := { st with perSwapchainImplementation := looked.2 }
    if looked.1 then (doQueuePresentResult, st1, true)
    else (VkResult.VK_ERROR_DEVICE_LOST, st1, false)

/-- Observable steps of SwappyGL::swapInternal, in program order. -/
inductive GLAction where
  | insertSyncFence
  | preSwapCallbacks
  | setPresentationTime
  | swapBuffers
  | postSwapCallbacks
deriving DecidableEq, Repr

/-- State of the SwappyGL singleton that SwappyGL::swap consults, with the
platform responses embedded as fields: whether construction succeeded
(mEnableSwappy), whether frame pacing is currently enabled, whether the
common base wants an explicit presentation time for this frame, and the
results the EGL layer would return for setPresentationTime and swapBuffers. -/
structure SwappyGLState where
  mEnableSwappy : Bool
  framePacingEnabled : Bool
  needToSetPresentationTime : Bool
  setPresentationTimeResult : Bool
  swapBuffersResult : Bool
deriving DecidableEq, Repr

/-- Modelled from the spec: SwappyGL::enabled() is declared in SwappyGL.h,
which is not among the sources at hand.  Per the spec, the scheduler is
Disabled (pacing bypassed) after a construction failure or after
enableFramePacing(false); enabled() is the complement of that state. -/
def SwappyGLState.enabled (s : SwappyGLState) : Bool :=
  s.mEnableSwappy && s.framePacingEnabled

/-- SwappyGL::swapInternal: insert a sync fence, run the pre-swap pacing pass,
optionally set the presentation time (returning its failure early), swap,
run the post-swap pass, and return the swapBuffers success. -/
def SwappyGLState.swapInternal (s : SwappyGLState) : Bool × List GLAction :=
  if s.needToSetPresentationTime && !s.setPresentationTimeResult then
    (s.setPresentationTimeResult,
     [GLAction.insertSyncFence, GLAction.preSwapCallbacks, GLAction.setPresentationTime])
  else
    (s.swapBuffersResult,
     [GLAction.insertSyncFence, GLAction.preSwapCallbacks] ++
     (if s.needToSetPresentationTime then [GLAction.setPresentationTime] else []) ++
     [GLAction.swapBuffers, GLAction.postSwapCallbacks])

/-- SwappyGL::swap: EGL_FALSE when no instance exists, the full pacing path
when enabled, and otherwise a bare passthrough swapBuffers call whose success
is returned unchanged. -/
def SwappyGL.swap (inst : Option SwappyGLState) : Bool × List GLAction :=
  match inst with
  | none => (false, [])
  | some s =>
    if s.enabled then s.swapInternal
    else (s.swapBuffersResult, [GLAction.swapBuffers])

/-! Helper lemmas about the embedded operations. -/

theorem ratTrunc_eq_floor {q : ℚ} (h : 0 ≤ q) : ratTrunc q = ⌊q⌋ := by
  unfold ratTrunc
  rw [Int.tdiv_eq_ediv (Rat.num_nonneg.mpr h) (by exact_mod_cast Nat.zero_le q.den)]
  exact Rat.floor_def.symm

theorem ratTrunc_eq_ceil {q : ℚ} (h : q < 0) : ratTrunc q = ⌈q⌉ := by
  have h1 : ratTrunc q = -ratTrunc (-q) := by
    unfold ratTrunc
    rw [Rat.neg_num, Rat.neg_den, Int.neg_tdiv, Int.neg_neg]
  rw [h1, ratTrunc_eq_floor (le_of_lt (neg_pos.mpr h)), Int.floor_neg, Int.neg_neg]

theorem ratTrunc_neg_iff {q : ℚ} : ratTrunc q < 0 ↔ q ≤ -1 := by
  rcases le_or_lt 0 q with hq | hq
  · rw [ratTrunc_eq_floor hq]
    constructor
    · intro hf
      exact absurd (Int.floor_nonneg.mpr hq) (by omega)
    · intro hle
      linarith
  · rw [ratTrunc_eq_ceil hq]
    constructor
    · intro hc
      have h1 : ⌈q⌉ ≤ -1 := by omega
      have h2 : q ≤ ((-1 : ℤ) : ℚ) := Int.ceil_le.mp h1
      exact_mod_cast h2
    · intro hle
      have h1 : ⌈q⌉ ≤ ((-1 : ℤ)) := Int.ceil_le.mpr (by exact_mod_cast hle)
      omega

theorem bump_length (l : List ℕ) (i : ℕ) : (bump l i).length = l.length := by
  simp [bump]

theorem bump_sum (l : List ℕ) (i : ℕ) (h : i < l.length) :
    (bump l i).sum = l.sum + 1 := by
  induction l generalizing i with
  | nil => simp at h
  | cons a l ih =>
    cases i with
    | zero => simp [bump]; omega
    | succ i =>
      have h2 := ih i (by simpa using h)
      simp [bump] at h2 ⊢
      omega

theorem bucketIndexOf_lt (s w : ℚ) (n : ℕ) (d : ℚ) (hn : 0 < n) :
    bucketIndexOf s w n d < n := by
  unfold bucketIndexOf
  simp only []
  split
  · exact hn
  · split
    · omega
    · rename_i h1 h2
      omega

theorem Add_histogram_eq (p : AutoParams) (h : Histogram) (d : ℚ)
    (hm : h.mode = Mode.HISTOGRAM) :
    Histogram.Add p h d =
      { h with
        buckets := bump h.buckets (bucketIndexOf h.start_ms h.bucket_dt_ms h.num_buckets d),
        count := h.count + 1 } := by
  cases h with
  | mk mo s e w n bks smp cap cnt idx =>
    simp only [Histogram.mode] at hm
    subst hm
    rfl

theorem replayAdd_eq (h : Histogram) (d : ℚ) :
    Histogram.replayAdd h d =
      { h with
        buckets := bump h.buckets (bucketIndexOf h.start_ms h.bucket_dt_ms h.num_buckets d),
        count := h.count + 1 } := rfl

theorem replayAdd_eq_Add (p : AutoParams) (h : Histogram) (d : ℚ)
    (hm : h.mode = Mode.HISTOGRAM) :
    Histogram.replayAdd h d = Histogram.Add p h d := by
  rw [replayAdd_eq, Add_histogram_eq p h d hm]

theorem replay_foldl (L : List ℚ) (g : Histogram) :
    L.foldl Histogram.replayAdd g =
      { g with
        buckets := L.foldl
          (fun b x => bump b (bucketIndexOf g.start_ms g.bucket_dt_ms g.num_buckets x)) g.buckets,
        count := g.count + L.length } := by
  induction L generalizing g with
  | nil => simp
  | cons a L ih =>
    rw [List.foldl_cons, replayAdd_eq, ih]
    simp [Histogram.mk.injEq, List.foldl_cons]
    omega

theorem foldl_bump_length (L : List ℚ) (f : ℚ → ℕ) (bs : List ℕ) :
    (L.foldl (fun b x => bump b (f x)) bs).length = bs.length := by
  induction L generalizing bs with
  | nil => rfl
  | cons a L ih =>
    rw [List.foldl_cons, ih, bump_length]

theorem foldl_bump_sum (L : List ℚ) (f : ℚ → ℕ) (bs : List ℕ)
    (hf : ∀ x, f x < bs.length) :
    (L.foldl (fun b x => bump b (f x)) bs).sum = bs.sum + L.length := by
  induction L generalizing bs with
  | nil => simp
  | cons a L ih =>
    rw [List.foldl_cons, ih _ (fun x => by rw [bump_length]; exact hf x),
        bump_sum _ _ (hf a)]
    simp
    omega

theorem AddList_nil (p : AutoParams) (h : Histogram) : Histogram.AddList p h [] = h := rfl

theorem AddList_cons (p : AutoParams) (h : Histogram) (a : ℚ) (L : List ℚ) :
    Histogram.AddList p h (a :: L) = Histogram.AddList p (Histogram.Add p h a) L := rfl

theorem AddList_histogram (p : AutoParams) (h : Histogram) (T : List ℚ)
    (hm : h.mode = Mode.HISTOGRAM) :
    Histogram.AddList p h T =
      { h with
        buckets := T.foldl
          (fun b x => bump b (bucketIndexOf h.start_ms h.bucket_dt_ms h.num_buckets x)) h.buckets,
        count := h.count + T.length } := by
  induction T generalizing h with
  | nil => simp [AddList_nil]
  | cons a T ih =>
    rw [AddList_cons, Add_histogram_eq p h a hm,
        ih { h with
             buckets := bump h.buckets (bucketIndexOf h.start_ms h.bucket_dt_ms h.num_buckets a),
             count := h.count + 1 } hm]
    simp [Histogram.mk.injEq, List.foldl_cons]
    omega

theorem AddList_histogram_mode (p : AutoParams) (h : Histogram) (T : List ℚ)
    (hm : h.mode = Mode.HISTOGRAM) :
    (Histogram.AddList p h T).mode = Mode.HISTOGRAM := by
  rw [AddList_histogram p h T hm]
  exact hm

theorem Calc_of_not_auto (p : AutoParams) (h : Histogram) (hm : h.mode ≠ Mode.AUTO_RANGE) :
    Histogram.CalcBucketsFromSamples p h = h := by
  unfold Histogram.CalcBucketsFromSamples
  rw [if_pos hm]

theorem Calc_mode (p : AutoParams) (h : Histogram) (hm : h.mode = Mode.AUTO_RANGE) :
    (Histogram.CalcBucketsFromSamples p h).mode = Mode.HISTOGRAM := by
  unfold Histogram.CalcBucketsFromSamples
  rw [if_neg (by simp [hm])]
  simp only []
  rw [replay_foldl]
  split <;> first | rfl | (split <;> rfl)

theorem Add_autorange_mode (p : AutoParams) (h : Histogram) (d : ℚ)
    (hm : h.mode = Mode.AUTO_RANGE) :
    Histogram.Add p h d =
      (if h.samples.length + 1 = h.samples_cap then
        { Histogram.CalcBucketsFromSamples p { h with samples := h.samples ++ [d] } with
          count := (Histogram.CalcBucketsFromSamples p
            { h with samples := h.samples ++ [d] }).count + 1 }
      else
        { h with samples := h.samples ++ [d], count := h.count + 1 }) := by
  cases h with
  | mk mo s e w n bks smp cap cnt idx =>
    simp only [Histogram.mode] at hm
    subst hm
    by_cases hl : smp.length + 1 = cap
    · simp [Histogram.Add, hl]
    · simp [Histogram.Add, hl]

theorem AddList_autorange (p : AutoParams) (h : Histogram) (T : List ℚ)
    (hm : h.mode = Mode.AUTO_RANGE)
    (hend : (Histogram.AddList p h T).mode = Mode.AUTO_RANGE) :
    Histogram.AddList p h T =
      { h with samples := h.samples ++ T, count := h.count + T.length } := by
  induction T generalizing h with
  | nil => simp [AddList_nil]
  | cons a T ih =>
    rw [AddList_cons] at hend ⊢
    rw [Add_autorange_mode p h a hm] at hend ⊢
    by_cases hl : h.samples.length + 1 = h.samples_cap
    · exfalso
      rw [if_pos hl] at hend
      have hcm : (Histogram.CalcBucketsFromSamples p
          { h with samples := h.samples ++ [a] }).mode = Mode.HISTOGRAM :=
        Calc_mode p _ (by exact hm)
      have : (Histogram.AddList p
          { Histogram.CalcBucketsFromSamples p { h with samples := h.samples ++ [a] } with
            count := (Histogram.CalcBucketsFromSamples p
              { h with samples := h.samples ++ [a] }).count + 1 } T).mode =
          Mode.HISTOGRAM :=
        AddList_histogram_mode p _ T (by exact hcm)
      rw [this] at hend
      exact Mode.noConfusion hend
    · rw [if_neg hl] at hend ⊢
      rw [ih { h with samples := h.samples ++ [a], count := h.count + 1 } hm hend]
      simp [Histogram.mk.injEq]
      omega

theorem Clear_eq_not_events (h : Histogram) (hm : h.mode ≠ Mode.EVENTS_ONLY) :
    Histogram.Clear h =
      { h with buckets := List.replicate h.buckets.length 0, samples := [], count := 0 } := by
  unfold Histogram.Clear
  simp only []
  rw [if_neg hm]

theorem Clear_eq_events (h : Histogram) (hm : h.mode = Mode.EVENTS_ONLY) :
    Histogram.Clear h =
      { h with buckets := List.replicate h.buckets.length 0,
               samples := List.replicate h.samples.length 0,
               next_event_index := 0, count := 0 } := by
  unfold Histogram.Clear
  simp only []
  rw [if_pos hm]

theorem Clear_mode (h : Histogram) : (Histogram.Clear h).mode = h.mode := by
  by_cases hm : h.mode = Mode.EVENTS_ONLY
  · rw [Clear_eq_events h hm]
  · rw [Clear_eq_not_events h hm]

theorem Clear_AddList_fresh (p : AutoParams) (h0 : Histogram) (T : List ℚ)
    (hmE : h0.mode ≠ Mode.EVENTS_ONLY)
    (hb : h0.buckets = List.replicate h0.buckets.length 0)
    (hs : h0.samples = []) (hc : h0.count = 0)
    (hm : (Histogram.AddList p h0 T).mode = h0.mode) :
    Histogram.Clear (Histogram.AddList p h0 T) = h0 := by
  cases hcase : h0.mode with
  | EVENTS_ONLY => exact absurd hcase hmE
  | HISTOGRAM =>
    rw [AddList_histogram p h0 T hcase]
    rw [Clear_eq_not_events _ (by simp [hcase])]
    simp only [foldl_bump_length]
    rw [← hb, ← hs, ← hc]
  | AUTO_RANGE =>
    rw [AddList_autorange p h0 T hcase (by rw [hm, hcase])]
    rw [Clear_eq_not_events _ (by simp [hcase])]
    rw [← hb, ← hs, ← hc]

theorem getD_zipWith_add (l1 l2 : List ℕ) (i : ℕ) (hi : i < l1.length)
    (hl : l1.length = l2.length) :
    (List.zipWith (fun a b => a + b) l1 l2).getD i 0 = l1.getD i 0 + l2.getD i 0 := by
  induction l1 generalizing l2 i with
  | nil => simp at hi
  | cons a l1 ih =>
    cases l2 with
    | nil => simp at hl
    | cons b l2 =>
      cases i with
      | zero => simp
      | succ i =>
        simp only [List.zipWith_cons_cons, List.getD_cons_succ]
        exact ih l2 i (by simpa using hi) (by simpa using hl)

/-! Theorems for the claims. -/

/-- Claim C10: constructing a Histogram with num_buckets_between less than or
equal to zero performs the bucket-width division with divisor 1 (never zero)
and sets num_buckets to the default bucket count rather than
num_buckets_between + 2; and the constructed mode is EVENTS_ONLY exactly when
never_bucket is set, else AUTO_RANGE exactly when start_ms and end_ms are
both zero, else HISTOGRAM. -/
theorem claim_C10 (kD : ℕ) (s e : ℚ) (nb : ℤ) (never : Bool) :
    (nb ≤ 0 →
      (Histogram.construct kD s e nb never).bucket_dt_ms = (e - s) / 1 ∧
      (Histogram.construct kD s e nb never).num_buckets = kD) ∧
    (never = true →
      (Histogram.construct kD s e nb never).mode = Mode.EVENTS_ONLY) ∧
    (never = false → s = 0 → e = 0 →
      (Histogram.construct kD s e nb never).mode = Mode.AUTO_RANGE) ∧
    (never = false → ¬(s = 0 ∧ e = 0) →
      (Histogram.construct kD s e nb never).mode = Mode.HISTOGRAM) := by
  refine ⟨fun hnb => ?_, fun hn => ?_, fun hn hs he => ?_, fun hn hse => ?_⟩ <;>
    simp [Histogram.construct, *]

/-- Witness for claim C10 at concrete inputs. -/
theorem claim_C10_witness :
    (Histogram.construct 5 1 2 0 false).bucket_dt_ms = (2 - 1) / 1 ∧
    (Histogram.construct 5 1 2 0 false).num_buckets = 5 ∧
    (Histogram.construct 5 1 2 0 false).mode = Mode.HISTOGRAM ∧
    (Histogram.construct 5 0 0 0 true).mode = Mode.EVENTS_ONLY ∧
    (Histogram.construct 5 0 0 3 false).mode = Mode.AUTO_RANGE :=
  ⟨((claim_C10 5 1 2 0 false).1 (by decide)).1,
   ((claim_C10 5 1 2 0 false).1 (by decide)).2,
   (claim_C10 5 1 2 0 false).2.2.2 rfl (by decide),
   (claim_C10 5 0 0 0 true).2.1 rfl,
   (claim_C10 5 0 0 3 false).2.2.1 rfl rfl rfl⟩

/-- Claim C9: while the SwappyGL scheduler is Disabled (construction failure
or pacing disabled), swap bypasses all pacing steps and degrades to a single
passthrough swapBuffers call, returning that call's success. -/
theorem claim_C9 (s : SwappyGLState) (hdis : s.enabled = false) :
    SwappyGL.swap (some s) = (s.swapBuffersResult, [GLAction.swapBuffers]) := by
  simp [SwappyGL.swap, hdis]

/-- Witness for claim C9 at a concrete disabled scheduler state. -/
theorem claim_C9_witness :
    SwappyGL.swap (some ⟨false, true, false, true, true⟩) = (true, [GLAction.swapBuffers]) :=
  claim_C9 ⟨false, true, false, true, true⟩ (by decide)

/-- Claim C4: AddCounts with a vector whose length differs from the bucket
count returns the bad-parameter error and leaves the entire histogram
unchanged; with matching length it returns success and adds element-wise into
the buckets. -/
theorem claim_C4 (h : Histogram) (counts : List ℕ) :
    (counts.length ≠ h.buckets.length →
      Histogram.AddCounts h counts = (TFErrorCode.TFERROR_BAD_PARAMETER, h)) ∧
    (counts.length = h.buckets.length →
      (Histogram.AddCounts h counts).1 = TFErrorCode.TFERROR_OK ∧
      (Histogram.AddCounts h counts).2.mode = h.mode ∧
      (Histogram.AddCounts h counts).2.count = h.count ∧
      (Histogram.AddCounts h counts).2.buckets.length = h.buckets.length ∧
      ∀ i, i < h.buckets.length →
        (Histogram.AddCounts h counts).2.buckets.getD i 0 =
          h.buckets.getD i 0 + counts.getD i 0) := by
  constructor
  · intro hne
    simp [Histogram.AddCounts, hne]
  · intro heq
    have hif : Histogram.AddCounts h counts =
        (TFErrorCode.TFERROR_OK,
         { h with buckets := List.zipWith (fun c_orig c => c_orig + c) h.buckets counts }) := by
      simp [Histogram.AddCounts, heq]
    rw [hif]
    refine ⟨rfl, rfl, rfl, by simp [heq], fun i hi => ?_⟩
    exact getD_zipWith_add h.buckets counts i hi heq.symm

/-- Witness for claim C4: a 7-bucket histogram rejects a 5-element vector
unchanged and accepts a 7-element vector element-wise. -/
theorem claim_C4_witness :
    Histogram.AddCounts (Histogram.construct 200 0 20 5 false) [1, 2, 3, 4, 5] =
      (TFErrorCode.TFERROR_BAD_PARAMETER, Histogram.construct 200 0 20 5 false) ∧
    (Histogram.AddCounts (Histogram.construct 200 0 20 5 false)
      [1, 2, 3, 4, 5, 6, 7]).1 = TFErrorCode.TFERROR_OK ∧
    (Histogram.AddCounts (Histogram.construct 200 0 20 5 false)
      [1, 2, 3, 4, 5, 6, 7]).2.buckets.getD 3 0 =
      (Histogram.construct 200 0 20 5 false).buckets.getD 3 0 + 4 :=
  ⟨(claim_C4 (Histogram.construct 200 0 20 5 false) [1, 2, 3, 4, 5]).1 (by decide),
   ((claim_C4 (Histogram.construct 200 0 20 5 false) [1, 2, 3, 4, 5, 6, 7]).2 (by decide)).1,
   ((claim_C4 (Histogram.construct 200 0 20 5 false) [1, 2, 3, 4, 5, 6, 7]).2
      (by decide)).2.2.2.2 3 (by decide)⟩

/-- Claim C1 failing input: an AUTO_RANGE histogram with batch capacity 3
(num_buckets_between = 1) violates sum(buckets) = count after the transition
to HISTOGRAM mode.  Adding the samples 1, 1, 1 triggers the transition on the
third Add: CalcBucketsFromSamples resets count_ to 0 and replays the three
buffered samples (sum of buckets and count both reach 3), but the pending
++count_ of the triggering Add then makes count 4 while the bucket sum stays
3, and the discrepancy persists from then on. -/
theorem claim_C1_code_bug_eval :
    (Histogram.AddList testAutoParams (Histogram.construct 200 0 0 1 false)
      [1, 1, 1]).buckets.sum = 3 ∧
    (Histogram.AddList testAutoParams (Histogram.construct 200 0 0 1 false)
      [1, 1, 1]).count = 4 := by
  decide

/-- Claim C5: in EVENTS_ONLY mode, Add writes the sample at the current
write cursor, advances the cursor with wraparound to 0 at the buffer size,
keeps the buffer length fixed, and increments count on every Add regardless
of wraparound; concretely, a capacity-3 events histogram fed 1, 2, 3, 4
holds [4, 2, 3] with count 4. -/
theorem claim_C5 (p : AutoParams) (h : Histogram) (d : ℚ) :
    (h.mode = Mode.EVENTS_ONLY →
      (Histogram.Add p h d).samples = h.samples.set h.next_event_index d ∧
      (Histogram.Add p h d).samples.length = h.samples.length ∧
      (Histogram.Add p h d).count = h.count + 1 ∧
      (Histogram.Add p h d).next_event_index =
        (if h.samples.length ≤ h.next_event_index + 1 then 0 else h.next_event_index + 1) ∧
      (h.next_event_index < h.samples.length →
        (Histogram.Add p h d).next_event_index =
          (h.next_event_index + 1) % h.samples.length)) ∧
    (Histogram.AddList testAutoParams (Histogram.construct 200 0 0 1 true)
      [1, 2, 3, 4]).samples = [4, 2, 3] ∧
    (Histogram.AddList testAutoParams (Histogram.construct 200 0 0 1 true)
      [1, 2, 3, 4]).count = 4 := by
  refine ⟨fun hm => ?_, by decide, by decide⟩
  cases h with
  | mk mo s e w n bks smp cap cnt idx =>
    simp only [Histogram.mode] at hm
    subst hm
    refine ⟨rfl, by simp [Histogram.Add], rfl, by simp [Histogram.Add], fun hidx => ?_⟩
    dsimp only at hidx
    simp only [Histogram.Add, List.length_set]
    rcases Nat.lt_or_ge (idx + 1) smp.length with hlt | hge
    · rw [if_neg (by omega), Nat.mod_eq_of_lt hlt]
    · have heq : idx + 1 = smp.length := by omega
      rw [if_pos (by omega), heq, Nat.mod_self]

/-- Witness for claim C5 at a concrete events-only histogram. -/
theorem claim_C5_witness :
    (Histogram.Add testAutoParams (Histogram.construct 200 0 0 1 true) 9).samples =
      (Histogram.construct 200 0 0 1 true).samples.set
        (Histogram.construct 200 0 0 1 true).next_event_index 9 ∧
    (Histogram.Add testAutoParams (Histogram.construct 200 0 0 1 true) 9).next_event_index =
      ((Histogram.construct 200 0 0 1 true).next_event_index + 1) %
        (Histogram.construct 200 0 0 1 true).samples.length :=
  ⟨((claim_C5 testAutoParams (Histogram.construct 200 0 0 1 true) 9).1 (by decide)).1,
   ((claim_C5 testAutoParams (Histogram.construct 200 0 0 1 true) 9).1
      (by decide)).2.2.2.2 (by decide)⟩

/-- Claim C2 counterexample: on Histogram(start=0, end=20, buckets=5), the
claim asserts Add(-1) increments bucket 0; the code converts
(-1 - 0)/4 = -0.25 to int with C++ truncation toward zero, giving i = 0 (not
floor's -1), so bucket i + 1 = 1 is incremented and bucket 0 stays 0. -/
theorem claim_C2_counterexample :
    (Histogram.Add testAutoParams (Histogram.construct 200 0 20 5 false) (-1)).buckets.getD 0 0
      = 0 ∧
    (Histogram.Add testAutoParams (Histogram.construct 200 0 20 5 false) (-1)).buckets
      = [0, 1, 0, 0, 0, 0, 0] := by
  decide

/-- Claim C2 as amended: in HISTOGRAM mode the bucket index is
i = trunc((sample - start)/bucket_width) (C++ double-to-int conversion
truncates toward zero, not floor); bucket 0 is incremented when i < 0, the
last bucket when i + 1 >= num_buckets, and bucket i + 1 otherwise; in
particular every sample s ≤ start - bucket_width lands in bucket 0 (samples
in the open interval (start - bucket_width, start) land in bucket 1), and for
Histogram(start=0, end=20, buckets=5), Add(-1) yields bucket[1]=1, Add(19.9)
yields bucket[5]=1, Add(100) yields bucket[6]=1, with count 3. -/
theorem claim_C2_amended (p : AutoParams) (h : Histogram) (d : ℚ)
    (hm : h.mode = Mode.HISTOGRAM) :
    ((ratTrunc ((d - h.start_ms) / h.bucket_dt_ms) < 0 →
        (Histogram.Add p h d).buckets = bump h.buckets 0) ∧
     (0 ≤ ratTrunc ((d - h.start_ms) / h.bucket_dt_ms) →
        (h.num_buckets : ℤ) ≤ ratTrunc ((d - h.start_ms) / h.bucket_dt_ms) + 1 →
        (Histogram.Add p h d).buckets = bump h.buckets (h.num_buckets - 1)) ∧
     (0 ≤ ratTrunc ((d - h.start_ms) / h.bucket_dt_ms) →
        ratTrunc ((d - h.start_ms) / h.bucket_dt_ms) + 1 < (h.num_buckets : ℤ) →
        (Histogram.Add p h d).buckets =
          bump h.buckets (ratTrunc ((d - h.start_ms) / h.bucket_dt_ms) + 1).toNat) ∧
     (0 < h.bucket_dt_ms → d ≤ h.start_ms - h.bucket_dt_ms →
        (Histogram.Add p h d).buckets = bump h.buckets 0) ∧
     (Histogram.Add p h d).count = h.count + 1) ∧
    (Histogram.AddList testAutoParams (Histogram.construct 200 0 20 5 false)
      [-1, 199/10, 100]).buckets = [0, 1, 0, 0, 0, 1, 1] ∧
    (Histogram.AddList testAutoParams (Histogram.construct 200 0 20 5 false)
      [-1, 199/10, 100]).count = 3 := by
  refine ⟨⟨fun hi => ?_, fun hi0 hge => ?_, fun hi0 hlt => ?_, fun hw hd => ?_, ?_⟩,
    by decide, by decide⟩
  · rw [Add_histogram_eq p h d hm]
    simp only [bucketIndexOf]
    rw [if_pos hi]
  · rw [Add_histogram_eq p h d hm]
    simp only [bucketIndexOf]
    rw [if_neg (by omega), if_pos hge]
  · rw [Add_histogram_eq p h d hm]
    simp only [bucketIndexOf]
    rw [if_neg (by omega), if_neg (by omega)]
  · have hq : (d - h.start_ms) / h.bucket_dt_ms ≤ -1 := by
      rw [div_le_iff₀ hw]
      linarith
    rw [Add_histogram_eq p h d hm]
    simp only [bucketIndexOf]
    rw [if_pos (ratTrunc_neg_iff.mpr hq)]
  · rw [Add_histogram_eq p h d hm]

/-- Witness for the amended claim C2 at the three scenario samples. -/
theorem claim_C2_witness :
    (Histogram.Add testAutoParams (Histogram.construct 200 0 20 5 false) (-1)).buckets
      = bump (Histogram.construct 200 0 20 5 false).buckets 1 ∧
    (Histogram.Add testAutoParams (Histogram.construct 200 0 20 5 false) (199/10)).buckets
      = bump (Histogram.construct 200 0 20 5 false).buckets 5 ∧
    (Histogram.Add testAutoParams (Histogram.construct 200 0 20 5 false) 100).buckets
      = bump (Histogram.construct 200 0 20 5 false).buckets 6 ∧
    (Histogram.Add testAutoParams (Histogram.construct 200 0 20 5 false) (-5)).buckets
      = bump (Histogram.construct 200 0 20 5 false).buckets 0 := by
  refine ⟨?_, ?_, ?_, ?_⟩
  · have hgen := (claim_C2_amended testAutoParams
      (Histogram.construct 200 0 20 5 false) (-1) (by decide)).1.2.2.1
    have := hgen (by decide) (by decide)
    simpa using this
  · have hgen := (claim_C2_amended testAutoParams
      (Histogram.construct 200 0 20 5 false) (199/10) (by decide)).1.2.2.1
    have := hgen (by decide) (by decide)
    simpa using this
  · have hgen := (claim_C2_amended testAutoParams
      (Histogram.construct 200 0 20 5 false) 100 (by decide)).1.2.1
    have := hgen (by decide) (by decide)
    simpa using this
  · have hgen := (claim_C2_amended testAutoParams
      (Histogram.construct 200 0 20 5 false) (-5) (by decide)).1.2.2.2.1
    have := hgen (by decide) (by decide)
    simpa using this

theorem pmaxList_eq (k : ℕ) (x w : ℚ) :
    pmaxList k x w = (List.range k).map (fun (i : ℕ) => x + (i : ℚ) * w) := by
  induction k generalizing x with
  | zero => rfl
  | succ k ih =>
    rw [pmaxList, ih (x + w), List.range_succ_eq_map]
    simp only [List.map_cons, List.map_map, Nat.cast_zero, zero_mul, add_zero, List.cons.injEq,
      true_and]
    refine List.map_congr_left (fun i _ => ?_)
    simp only [Function.comp_apply]
    push_cast
    ring

theorem getD_prefix_getLast (l : List ℕ) (hne : 0 < l.length) :
    (List.range (l.length - 1)).map (fun i => l.getD i 0) ++ [l.getLastD 0] = l := by
  have hl : l ≠ [] := List.ne_nil_of_length_pos hne
  have h1 : (List.range (l.length - 1)).map (fun i => l.getD i 0) = l.dropLast := by
    apply List.ext_getElem
    · simp
    · intro i h1 h2
      have hi : i < l.length - 1 := by simpa using h1
      have hi2 : i < l.length := by omega
      simp only [List.getElem_map, List.getElem_range, List.getElem_dropLast]
      exact List.getD_eq_getElem l 0 hi2
  rw [h1, List.getLastD_eq_getLast? , List.getLast?_eq_getLast l hl]
  simpa using List.dropLast_append_getLast hl

/-- Claim C7: ToDebugJSON yields the events wire format (the raw sample
buffer) whenever the mode is not HISTOGRAM, and otherwise the bucketed wire
format whose pmax array holds the num_buckets - 1 bucket upper bounds
starting at start_ms and stepping by bucket_dt_ms followed by the literal
99999 (ascending when bucket_dt_ms is positive), and whose cnts array holds
all num_buckets bucket counts in order. -/
theorem claim_C7 (fmt : ℚ → String) (h : Histogram) :
    (h.mode ≠ Mode.HISTOGRAM → Histogram.ToDebugJSON fmt h = specEventsJSON fmt h) ∧
    (h.mode = Mode.HISTOGRAM → Histogram.ToDebugJSON fmt h = specHistogramJSON fmt h) ∧
    (0 < h.bucket_dt_ms → (specPmax h).Pairwise (fun a b => a < b)) ∧
    (0 < h.num_buckets → h.buckets.length = h.num_buckets →
      (List.range (h.num_buckets - 1)).map (fun i => h.buckets.getD i 0) ++ [h.buckets.getLastD 0]
        = h.buckets) := by
  refine ⟨fun hm => ?_, fun hm => ?_, fun hw => ?_, fun hn hlen => ?_⟩
  · simp [Histogram.ToDebugJSON, specEventsJSON, hm]
  · simp only [Histogram.ToDebugJSON, specHistogramJSON, specPmax, hm, ne_eq,
      not_true_eq_false, if_false, pmaxList_eq]
  · have hr := List.pairwise_lt_range (h.num_buckets - 1)
    unfold specPmax
    refine List.Pairwise.map (fun i : ℕ => h.start_ms + (i : ℚ) * h.bucket_dt_ms)
      (fun a b hab => ?_) hr
    have hq : (a : ℚ) < (b : ℚ) := by exact_mod_cast hab
    have := mul_lt_mul_of_pos_right hq hw
    dsimp only
    linarith
  · rw [← hlen]
    exact getD_prefix_getLast h.buckets (by omega)

/-- Witness for claim C7 at a concrete fixed-range histogram and a concrete
events-only histogram. -/
theorem claim_C7_witness :
    Histogram.ToDebugJSON (fun _ => "x") (Histogram.construct 200 0 0 1 true)
      = specEventsJSON (fun _ => "x") (Histogram.construct 200 0 0 1 true) ∧
    Histogram.ToDebugJSON (fun _ => "x") (Histogram.construct 200 0 20 5 false)
      = specHistogramJSON (fun _ => "x") (Histogram.construct 200 0 20 5 false) ∧
    (specPmax (Histogram.construct 200 0 20 5 false)).Pairwise (fun a b => a < b) ∧
    (List.range ((Histogram.construct 200 0 20 5 false).num_buckets - 1)).map
      (fun i => (Histogram.construct 200 0 20 5 false).buckets.getD i 0) ++
      [(Histogram.construct 200 0 20 5 false).buckets.getLastD 0]
      = (Histogram.construct 200 0 20 5 false).buckets :=
  ⟨(claim_C7 (fun _ => "x") (Histogram.construct 200 0 0 1 true)).1 (by decide),
   (claim_C7 (fun _ => "x") (Histogram.construct 200 0 20 5 false)).2.1 (by decide),
   (claim_C7 (fun _ => "x") (Histogram.construct 200 0 20 5 false)).2.2.1 (by decide),
   (claim_C7 (fun _ => "x") (Histogram.construct 200 0 20 5 false)).2.2.2 (by decide) (by decide)⟩

theorem construct_not_never (kD : ℕ) (s e : ℚ) (nb : ℤ) :
    Histogram.construct kD s e nb false =
      { mode := if s = 0 ∧ e = 0 then Mode.AUTO_RANGE else Mode.HISTOGRAM,
        start_ms := s, end_ms := e,
        bucket_dt_ms := (e - s) / (if nb ≤ 0 then 1 else (nb : ℚ)),
        num_buckets := if nb ≤ 0 then kD else nb.toNat + 2,
        buckets := List.replicate (if nb ≤ 0 then kD else nb.toNat + 2) 0,
        samples := [],
        samples_cap := if nb ≤ 0 then kD else nb.toNat + 2,
        count := 0, next_event_index := 0 } := by
  by_cases hc : s = 0 ∧ e = 0 <;> simp [Histogram.construct, hc]

/-- Claim C6: Clear zeroes all bucket counts and count; in EVENTS_ONLY mode
it also zeroes the raw buffer and resets the write cursor; in other modes it
empties the buffered raw samples without changing the mode; and for a
histogram constructed without the never-bucket flag whose mode (hence range
parameters) is unchanged by a first Add sequence, Clear followed by any Add
sequence produces the same bucket state as the freshly constructed histogram
fed the same sequence. -/
theorem claim_C6 (p : AutoParams) (h : Histogram) (kD : ℕ) (s e : ℚ) (nb : ℤ)
    (T S : List ℚ) :
    ((Histogram.Clear h).buckets = List.replicate h.buckets.length 0 ∧
     (Histogram.Clear h).count = 0 ∧
     (Histogram.Clear h).mode = h.mode ∧
     (h.mode = Mode.EVENTS_ONLY →
       (Histogram.Clear h).samples = List.replicate h.samples.length 0 ∧
       (Histogram.Clear h).next_event_index = 0) ∧
     (h.mode ≠ Mode.EVENTS_ONLY → (Histogram.Clear h).samples = [])) ∧
    ((Histogram.AddList p (Histogram.construct kD s e nb false) T).mode =
        (Histogram.construct kD s e nb false).mode →
      (Histogram.AddList p
        (Histogram.Clear (Histogram.AddList p (Histogram.construct kD s e nb false) T))
        S).buckets =
      (Histogram.AddList p (Histogram.construct kD s e nb false) S).buckets) := by
  constructor
  · by_cases hm : h.mode = Mode.EVENTS_ONLY
    · rw [Clear_eq_events h hm]
      exact ⟨rfl, rfl, rfl, fun _ => ⟨rfl, rfl⟩, fun hc => absurd hm hc⟩
    · rw [Clear_eq_not_events h hm]
      exact ⟨rfl, rfl, rfl, fun hc => absurd hc hm, fun _ => rfl⟩
  · intro hmode
    rw [Clear_AddList_fresh p (Histogram.construct kD s e nb false) T ?_ ?_ ?_ ?_ hmode]
    · rw [construct_not_never]
      dsimp only
      split <;> simp
    · rw [construct_not_never]
      simp
    · rw [construct_not_never]
    · rw [construct_not_never]

/-- Witness for claim C6: the events-only Clear facts at a concrete filled
events histogram, and the clear-then-replay equivalence at a concrete
fixed-range histogram. -/
theorem claim_C6_witness :
    (Histogram.Clear (Histogram.AddList testAutoParams
        (Histogram.construct 200 0 0 1 true) [1, 2, 3, 4])).samples
      = List.replicate (Histogram.AddList testAutoParams
          (Histogram.construct 200 0 0 1 true) [1, 2, 3, 4]).samples.length 0 ∧
    (Histogram.AddList testAutoParams
      (Histogram.Clear (Histogram.AddList testAutoParams
        (Histogram.construct 200 0 20 5 false) [1, 25]))
      [3]).buckets =
    (Histogram.AddList testAutoParams (Histogram.construct 200 0 20 5 false) [3]).buckets :=
  ⟨((claim_C6 testAutoParams
      (Histogram.AddList testAutoParams (Histogram.construct 200 0 0 1 true) [1, 2, 3, 4])
      200 0 0 1 [] []).1.2.2.2.1 (by decide)).1,
   (claim_C6 testAutoParams (Histogram.construct 200 0 20 5 false)
      200 0 20 5 [1, 25] [3]).2 (by decide)⟩

/-- Claim C8 counterexample: with queue 1 registered but swapchain 5 never
given a pacing implementation, QueuePresent(queue 1, swapchain 5) returns the
failure code without presenting, but the claim's further assertion that
scheduler state is unchanged fails: std::map operator[] inserts a null
placeholder entry for swapchain 5 into perSwapchainImplementation. -/
theorem claim_C8_counterexample :
    (SwappyVk.QueuePresent VkResult.VK_SUCCESS
        { perQueueFamilyIndex := [(1, ⟨7, 0⟩)], perSwapchainImplementation := [] }
        1 { swapchainCount := 1, pSwapchains := some [5] }).2.1.perSwapchainImplementation
      = [(5, false)] ∧
    (SwappyVk.QueuePresent VkResult.VK_SUCCESS
        { perQueueFamilyIndex := [(1, ⟨7, 0⟩)], perSwapchainImplementation := [] }
        1 { swapchainCount := 1, pSwapchains := some [5] }).2.1 ≠
      ({ perQueueFamilyIndex := [(1, ⟨7, 0⟩)], perSwapchainImplementation := [] } :
        SwappyVkState) := by
  decide

/-- Claim C8 as amended: QueuePresent with an unregistered queue is a
complete no-op returning VK_INCOMPLETE (not VK_SUCCESS, state untouched); with
a registered queue but a first swapchain that has no registered pacing
implementation it performs no pacing or present work and returns
VK_ERROR_DEVICE_LOST, leaving the queue map and every existing swapchain
entry unchanged, except that a null placeholder entry for that swapchain may
be appended to the implementation map. -/
theorem claim_C8_amended (r : VkResult) (st : SwappyVkState) (q : ℕ)
    (pinfo : VkPresentInfo) :
    ((st.perQueueFamilyIndex.lookup q).isNone = true →
      SwappyVk.QueuePresent r st q pinfo = (VkResult.VK_INCOMPLETE, st, false) ∧
      (SwappyVk.QueuePresent r st q pinfo).1 ≠ VkResult.VK_SUCCESS) ∧
    ((st.perQueueFamilyIndex.lookup q).isNone = false →
      pinfo.swapchainCount ≠ 0 →
      ∀ scs, pinfo.pSwapchains = some scs →
      (st.perSwapchainImplementation.lookup (scs.headD 0) = none ∨
        st.perSwapchainImplementation.lookup (scs.headD 0) = some false) →
      (SwappyVk.QueuePresent r st q pinfo).1 = VkResult.VK_ERROR_DEVICE_LOST ∧
      (SwappyVk.QueuePresent r st q pinfo).1 ≠ VkResult.VK_SUCCESS ∧
      (SwappyVk.QueuePresent r st q pinfo).2.2 = false ∧
      (SwappyVk.QueuePresent r st q pinfo).2.1.perQueueFamilyIndex =
        st.perQueueFamilyIndex ∧
      ((SwappyVk.QueuePresent r st q pinfo).2.1.perSwapchainImplementation =
          st.perSwapchainImplementation ∨
       (SwappyVk.QueuePresent r st q pinfo).2.1.perSwapchainImplementation =
          st.perSwapchainImplementation ++ [(scs.headD 0, false)])) := by
  constructor
  · intro hq
    constructor
    · simp [SwappyVk.QueuePresent, hq]
    · simp [SwappyVk.QueuePresent, hq]
  · intro hq hc scs hsc himpl
    simp only [List.headD_eq_head?_getD] at himpl
    have hres : SwappyVk.QueuePresent r st q pinfo =
        (VkResult.VK_ERROR_DEVICE_LOST,
         { st with perSwapchainImplementation :=
             (mapIndex st.perSwapchainImplementation (scs.headD 0)).2 },
         false) := by
      unfold SwappyVk.QueuePresent
      rw [if_neg (by simp [hq]), if_neg (by simp [hc, hsc])]
      simp only [hsc, Option.getD_some]
      have hfalse : (mapIndex st.perSwapchainImplementation (scs.head?.getD 0)).1 = false := by
        rcases himpl with hnone | hsome
        · simp [mapIndex, hnone]
        · simp [mapIndex, hsome]
      rw [if_neg (by simp [hfalse])]
    rw [hres]
    refine ⟨rfl, by simp, rfl, rfl, ?_⟩
    simp only [List.headD_eq_head?_getD]
    rcases himpl with hnone | hsome
    · right
      simp [mapIndex, hnone]
    · left
      simp [mapIndex, hsome]

/-- Witness for the amended claim C8 at concrete states: an unregistered
queue, and a registered queue with an unregistered swapchain. -/
theorem claim_C8_witness :
    SwappyVk.QueuePresent VkResult.VK_SUCCESS
        { perQueueFamilyIndex := [], perSwapchainImplementation := [(5, true)] }
        1 { swapchainCount := 1, pSwapchains := some [5] }
      = (VkResult.VK_INCOMPLETE,
         { perQueueFamilyIndex := [], perSwapchainImplementation := [(5, true)] }, false) ∧
    (SwappyVk.QueuePresent VkResult.VK_SUCCESS
        { perQueueFamilyIndex := [(1, ⟨7, 0⟩)], perSwapchainImplementation := [] }
        1 { swapchainCount := 1, pSwapchains := some [5] }).1
      = VkResult.VK_ERROR_DEVICE_LOST ∧
    (SwappyVk.QueuePresent VkResult.VK_SUCCESS
        { perQueueFamilyIndex := [(1, ⟨7, 0⟩)], perSwapchainImplementation := [] }
        1 { swapchainCount := 1, pSwapchains := some [5] }).2.2 = false :=
  ⟨((claim_C8_amended VkResult.VK_SUCCESS
      { perQueueFamilyIndex := [], perSwapchainImplementation := [(5, true)] }
      1 { swapchainCount := 1, pSwapchains := some [5] }).1 (by decide)).1,
   ((claim_C8_amended VkResult.VK_SUCCESS
      { perQueueFamilyIndex := [(1, ⟨7, 0⟩)], perSwapchainImplementation := [] }
      1 { swapchainCount := 1, pSwapchains := some [5] }).2 (by decide) (by decide)
      [5] rfl (Or.inl (by decide))).1,
   ((claim_C8_amended VkResult.VK_SUCCESS
      { perQueueFamilyIndex := [(1, ⟨7, 0⟩)], perSwapchainImplementation := [] }
      1 { swapchainCount := 1, pSwapchains := some [5] }).2 (by decide) (by decide)
      [5] rfl (Or.inl (by decide))).2.2.1⟩

/-- Mean of the auto-range sample batch, as CalcBucketsFromSamples computes
it: sum / n. -/
def batchMean (l : List ℚ) : ℚ :=
  l.sum / (l.length : ℚ)

/-- Variance of the batch as computed: sum2 / n - mean * mean (clamped at 0
by the caller before taking the square root). -/
def batchVar (l : List ℚ) : ℚ :=
  (l.map (fun x => x * x)).sum / (l.length : ℚ) - batchMean l * batchMean l

/-- Standard deviation as computed: sqrt of the variance clamped at 0. -/
def batchStddev (p : AutoParams) (l : List ℚ) : ℚ :=
  p.sqrtApprox (if batchVar l < 0 then 0 else batchVar l)

/-- Auto-sized range start: max(mean - k stddev, 0). -/
def autoStart (p : AutoParams) (l : List ℚ) : ℚ :=
  max (batchMean l - p.kAutoSizeNumStdDev * batchStddev p l) 0

/-- Auto-sized range end: mean + k stddev. -/
def autoEnd (p : AutoParams) (l : List ℚ) : ℚ :=
  batchMean l + p.kAutoSizeNumStdDev * batchStddev p l

/-- Auto-sized bucket width before the minimum-width floor:
(end - start) / (num_buckets - 2). -/
def autoWidth (p : AutoParams) (l : List ℚ) (n : ℕ) : ℚ :=
  (autoEnd p l - autoStart p l) / ((n : ℚ) - 2)

theorem Calc_eq (p : AutoParams) (h : Histogram) (hm : h.mode = Mode.AUTO_RANGE) :
    Histogram.CalcBucketsFromSamples p h =
      (if autoWidth p h.samples h.num_buckets < p.kAutoSizeMinBucketSizeMs then
        { h with mode := Mode.HISTOGRAM,
                 start_ms := batchMean h.samples -
                   p.kAutoSizeMinBucketSizeMs * ((h.num_buckets : ℚ) - 2) / 2,
                 end_ms := batchMean h.samples +
                   p.kAutoSizeMinBucketSizeMs * ((h.num_buckets : ℚ) - 2) / 2,
                 bucket_dt_ms := p.kAutoSizeMinBucketSizeMs,
                 buckets := h.samples.foldl (fun b x => bump b (bucketIndexOf
                   (batchMean h.samples -
                     p.kAutoSizeMinBucketSizeMs * ((h.num_buckets : ℚ) - 2) / 2)
                   p.kAutoSizeMinBucketSizeMs h.num_buckets x)) h.buckets,
                 count := h.samples.length }
      else
        { h with mode := Mode.HISTOGRAM,
                 start_ms := autoStart p h.samples,
                 end_ms := autoEnd p h.samples,
                 bucket_dt_ms := autoWidth p h.samples h.num_buckets,
                 buckets := h.samples.foldl (fun b x => bump b (bucketIndexOf
                   (autoStart p h.samples) (autoWidth p h.samples h.num_buckets)
                   h.num_buckets x)) h.buckets,
                 count := h.samples.length }) := by
  unfold Histogram.CalcBucketsFromSamples
  rw [if_neg (by simp [hm])]
  simp only [replay_foldl, autoWidth, autoStart, autoEnd, batchStddev, batchVar, batchMean]
  split_ifs <;> simp [Histogram.mk.injEq]

/-- Claim C3: the Add call that fills the auto-range sample buffer to its
capacity derives the range from the batch statistics: start =
max(mean - k stddev, 0) and end = mean + k stddev with the bucket width
(end - start)/(num_buckets - 2), widened symmetrically around the mean when
that width falls below the minimum floor; it switches the mode to HISTOGRAM
irreversibly (Add, Clear and CalcBucketsFromSamples never leave HISTOGRAM),
and CalcBucketsFromSamples resets count to 0 and replays every buffered
sample through Add, so each of the batch samples is reflected in the
post-transition bucket counts exactly once. -/
theorem claim_C3 (p : AutoParams) (h g : Histogram) (d : ℚ) :
    (h.mode = Mode.AUTO_RANGE →
     h.samples.length + 1 = h.samples_cap →
     h.buckets.length = h.num_buckets →
     0 < h.num_buckets →
     (∀ b ∈ h.buckets, b = 0) →
      (Histogram.Add p h d).mode = Mode.HISTOGRAM ∧
      (Histogram.Add p h d).buckets.sum = h.samples.length + 1 ∧
      (Histogram.CalcBucketsFromSamples p { h with samples := h.samples ++ [d] }).count
        = h.samples.length + 1 ∧
      (¬ autoWidth p (h.samples ++ [d]) h.num_buckets < p.kAutoSizeMinBucketSizeMs →
        (Histogram.Add p h d).start_ms = autoStart p (h.samples ++ [d]) ∧
        (Histogram.Add p h d).end_ms = autoEnd p (h.samples ++ [d]) ∧
        (Histogram.Add p h d).bucket_dt_ms = autoWidth p (h.samples ++ [d]) h.num_buckets) ∧
      (autoWidth p (h.samples ++ [d]) h.num_buckets < p.kAutoSizeMinBucketSizeMs →
        (Histogram.Add p h d).bucket_dt_ms = p.kAutoSizeMinBucketSizeMs ∧
        (Histogram.Add p h d).start_ms = batchMean (h.samples ++ [d]) -
          p.kAutoSizeMinBucketSizeMs * ((h.num_buckets : ℚ) - 2) / 2 ∧
        (Histogram.Add p h d).end_ms = batchMean (h.samples ++ [d]) +
          p.kAutoSizeMinBucketSizeMs * ((h.num_buckets : ℚ) - 2) / 2)) ∧
    (g.mode = Mode.HISTOGRAM →
      (Histogram.Add p g d).mode = Mode.HISTOGRAM ∧
      (Histogram.Clear g).mode = Mode.HISTOGRAM ∧
      Histogram.CalcBucketsFromSamples p g = g) := by
  constructor
  · intro hm hcap hlen hn hz
    have hm2 : ({ h with samples := h.samples ++ [d] } : Histogram).mode = Mode.AUTO_RANGE := hm
    have hAdd : Histogram.Add p h d =
        { Histogram.CalcBucketsFromSamples p { h with samples := h.samples ++ [d] } with
          count := (Histogram.CalcBucketsFromSamples p
            { h with samples := h.samples ++ [d] }).count + 1 } := by
      rw [Add_autorange_mode p h d hm, if_pos hcap]
    rw [hAdd, Calc_eq p { h with samples := h.samples ++ [d] } hm2]
    dsimp only
    refine ⟨?_, ?_, ?_, ?_, ?_⟩
    · split_ifs <;> rfl
    · split_ifs <;>
        (dsimp only;
         rw [foldl_bump_sum _ _ _ (fun x => by rw [hlen]; exact bucketIndexOf_lt _ _ _ _ hn),
             List.sum_eq_zero hz];
         simp)
    · split_ifs <;> simp
    · intro hcon2
      rw [if_neg hcon2]
      exact ⟨rfl, rfl, rfl⟩
    · intro hcon2
      rw [if_pos hcon2]
      exact ⟨rfl, rfl, rfl⟩
  · intro hg
    refine ⟨?_, ?_, Calc_of_not_auto p g (by simp [hg])⟩
    · rw [Add_histogram_eq p g d hg]
      exact hg
    · rw [Clear_mode g]
      exact hg

/-- Witness for claim C3: a capacity-3 auto-range histogram already holding
two samples transitions on the third Add, and a fixed-range histogram never
leaves HISTOGRAM mode. -/
theorem claim_C3_witness :
    (Histogram.Add testAutoParams
      (Histogram.AddList testAutoParams (Histogram.construct 200 0 0 1 false) [1, 2]) 3).mode
      = Mode.HISTOGRAM ∧
    (Histogram.Add testAutoParams
      (Histogram.AddList testAutoParams (Histogram.construct 200 0 0 1 false) [1, 2]) 3).buckets.sum
      = 3 ∧
    (Histogram.Clear (Histogram.construct 200 0 20 5 false)).mode = Mode.HISTOGRAM ∧
    Histogram.CalcBucketsFromSamples testAutoParams (Histogram.construct 200 0 20 5 false)
      = Histogram.construct 200 0 20 5 false :=
  ⟨((claim_C3 testAutoParams
      (Histogram.AddList testAutoParams (Histogram.construct 200 0 0 1 false) [1, 2])
      (Histogram.construct 200 0 20 5 false) 3).1
      (by decide) (by decide) (by decide) (by decide) (by decide)).1,
   ((claim_C3 testAutoParams
      (Histogram.AddList testAutoParams (Histogram.construct 200 0 0 1 false) [1, 2])
      (Histogram.construct 200 0 20 5 false) 3).1
      (by decide) (by decide) (by decide) (by decide) (by decide)).2.1,
   ((claim_C3 testAutoParams
      (Histogram.AddList testAutoParams (Histogram.construct 200 0 0 1 false) [1, 2])
      (Histogram.construct 200 0 20 5 false) 3).2 (by decide)).2.1,
   ((claim_C3 testAutoParams
      (Histogram.AddList testAutoParams (Histogram.construct 200 0 0 1 false) [1, 2])
      (Histogram.construct 200 0 20 5 false) 3).2 (by decide)).2.2⟩

end Gamesdk
